import Mathlib

/-!
Shallow embedding of the LXD container management module
(src/cloud/lxd/lxd_container.py): the reconciliation run, the per-state
handlers, the address-wait loop and the two screen-scraping parsers, with
theorems checking the module's specification against them.
-/

namespace LxdContainer

/-- The five values of the module's state parameter (the keys of
LXD_ANSIBLE_STATES in the source, restricted by the argument spec). -/
inductive DesiredState
  | started
  | stopped
  | restarted
  | frozen
  | absent
deriving DecidableEq, Repr

/-- Observable lifecycle states of the remote resource.  Absent models a
container that does not exist (the status query returns nothing). -/
inductive ResourceState
  | Absent
  | Stopped
  | Running
  | Frozen
deriving DecidableEq, Repr

/-- ANSIBLE_LXD_STATES from the source: backend status string to module
state name. -/
def ANSIBLE_LXD_STATES : List (String × String) :=
  [("Running", "started"), ("Stopped", "stopped"), ("Frozen", "frozen")]

/-- Association-list lookup (Python dict.get with default None). -/
def lookupAssoc : List (String × String) → String → Option String
  | [], _ => none
  | (k, v) :: rest, key => if key = k then some v else lookupAssoc rest key

/-- LxdContainerManagement._get_container_status: on a zero exit code, the
text after the first output line starting with "Status: "; otherwise None. -/
def getContainerStatus (rc : Nat) (out : String) : Option String :=
  if rc = 0 then
    ((out.splitOn "\n").find? (fun line => line.startsWith "Status: ")).map
      (fun line => line.drop 8)
  else none

/-- LxdContainerManagement._has_all_ipv4_addresses: the dict is non-empty and
every interface's address list is non-empty. -/
def hasAllIpv4Addresses (addresses : List (String × List String)) : Bool :=
  decide (0 < addresses.length) &&
    addresses.all (fun v => decide (0 < v.2.length))

/-- LxdContainerManagement._started: the actions it executes, keyed on
old_state (None when the container is absent). -/
def startedActions : Option String → List String
  | none => ["launch"]
  | some old => if old ≠ "started" then ["start"] else []

/-- LxdContainerManagement._stopped: the actions it executes. -/
def stoppedActions : Option String → List String
  | none => ["launch", "stop"]
  | some old =>
    if old = "frozen" then ["start", "pause"]
    else if old ≠ "stopped" then ["stop"]
    else []

/-- LxdContainerManagement._restarted: the actions it executes. -/
def restartedActions : Option String → List String
  | none => ["launch"]
  | some old =>
    if old = "frozen" then ["start", "restart"]
    else if old = "started" then ["restart"]
    else ["start"]

/-- LxdContainerManagement._frozen: the actions it executes. -/
def frozenActions : Option String → List String
  | none => ["launch", "pause"]
  | some old =>
    if old = "started" then ["pause"]
    else if old = "stopped" then ["start", "pause"]
    else []

/-- LxdContainerManagement._destroyed: the actions it executes. -/
def destroyedActions : Option String → List String
  | none => []
  | some _ => ["delete"]

/-- The dispatch table LXD_ANSIBLE_STATES keys: which handler runs for each
desired state, and hence which action log the run accumulates. -/
def runActions (desired : DesiredState) (old : Option String) : List String :=
  match desired with
  | .started => startedActions old
  | .stopped => stoppedActions old
  | .restarted => restartedActions old
  | .frozen => frozenActions old
  | .absent => destroyedActions old

/-- Which handlers call _get_addresses after their actions: _started and
_restarted do, the other three do not. -/
def waitsForAddresses : DesiredState → Bool
  | .started => true
  | .restarted => true
  | _ => false

/-- Outcome of _get_addresses: no wait requested, addresses found, or the
deadline elapsed (which triggers _on_timeout). -/
inductive AddrResult
  | noWait
  | found (addresses : List (String × List String))
  | timedOut
deriving DecidableEq, Repr

/-- The polling loop of _get_addresses: at most a given number of one-second
polls, each observing the address map the backend reports at that instant
(polls k is the k-th observation); success on the first observation
satisfying _has_all_ipv4_addresses. -/
def pollLoop (polls : Nat → List (String × List String)) :
    Nat → Nat → AddrResult
  | 0, _ => .timedOut
  | n + 1, k =>
    let addresses := polls k
    if hasAllIpv4Addresses addresses then .found addresses
    else pollLoop polls n (k + 1)

/-- LxdContainerManagement._get_addresses: no polling at all when
timeout_for_addresses is non-positive; otherwise poll once per elapsed
second until the deadline (timeout seconds from the start). -/
def getAddresses (timeout : Int)
    (polls : Nat → List (String × List String)) : AddrResult :=
  if timeout ≤ 0 then .noWait else pollLoop polls timeout.toNat 0

/-- The result record exit_json receives on the normal path. -/
structure RunOk where
  changed : Bool
  old_state : Option String
  logs : List String
  addresses : Option (List (String × List String))
deriving DecidableEq, Repr

/-- The three observable outcomes of LxdContainerManagement.run: exit_json,
the fail_json of the unsupported-status check (carrying the raw status
string), and the fail_json of _on_timeout (carrying changed and logs). -/
inductive RunResult
  | ok (r : RunOk)
  | unsupportedStatus (status : String)
  | addressTimeout (changed : Bool) (logs : List String)
deriving DecidableEq, Repr

/-- The body of run after old_state is resolved: execute the handler's
actions, then for started/restarted run _get_addresses; a timeout there is
_on_timeout's fail_json, otherwise exit_json with changed = (logs non-empty). -/
def runDispatch (desired : DesiredState) (old : Option String) (timeout : Int)
    (polls : Nat → List (String × List String)) : RunResult :=
  let logs := runActions desired old
  if waitsForAddresses desired then
    match getAddresses timeout polls with
    | .timedOut => .addressTimeout (decide (0 < logs.length)) logs
    | .noWait => .ok ⟨decide (0 < logs.length), old, logs, none⟩
    | .found a => .ok ⟨decide (0 < logs.length), old, logs, some a⟩
  else .ok ⟨decide (0 < logs.length), old, logs, none⟩

/-- LxdContainerManagement.run given the parsed status: map the raw status
through ANSIBLE_LXD_STATES; a present status outside the map is the fatal
unsupported-status fail_json, issued before any action. -/
def runFromStatus (desired : DesiredState) (status : Option String)
    (timeout : Int) (polls : Nat → List (String × List String)) : RunResult :=
  match status with
  | none => runDispatch desired none timeout polls
  | some s =>
    match lookupAssoc ANSIBLE_LXD_STATES s with
    | none => .unsupportedStatus s
    | some o => runDispatch desired (some o) timeout polls

/-- LxdContainerManagement.run from the raw info-command output. -/
def run (desired : DesiredState) (rc : Nat) (out : String) (timeout : Int)
    (polls : Nat → List (String × List String)) : RunResult :=
  runFromStatus desired (getContainerStatus rc out) timeout polls

/-- The raw status string the backend reports for each resource state
(none when the container is absent). -/
def statusOf : ResourceState → Option String
  | .Absent => none
  | .Stopped => some "Stopped"
  | .Running => some "Running"
  | .Frozen => some "Frozen"

/-- old_state as run computes it from an observed resource state. -/
def oldOf (s : ResourceState) : Option String :=
  (statusOf s).bind (lookupAssoc ANSIBLE_LXD_STATES)

/-- run, starting from an observed resource state. -/
def runFromState (desired : DesiredState) (s : ResourceState) (timeout : Int)
    (polls : Nat → List (String × List String)) : RunResult :=
  runFromStatus desired (statusOf s) timeout polls

/-- Modelled from the spec: the backend's action semantics (section 3 and the
design rationale of section 4.1).  launch creates and starts (Running);
start starts a stopped container and resumes a frozen one; stop stops a
running container; restart leaves it running; pause freezes a running
container; delete removes it. -/
def applyAction (s : ResourceState) (a : String) : ResourceState :=
  if a = "launch" then .Running
  else if a = "start" then
    match s with
    | .Stopped => .Running
    | .Frozen => .Running
    | s' => s'
  else if a = "stop" then
    match s with
    | .Running => .Stopped
    | s' => s'
  else if a = "restart" then s
  else if a = "pause" then
    match s with
    | .Running => .Frozen
    | s' => s'
  else if a = "delete" then .Absent
  else s

/-- The resource state after a sequence of actions. -/
def finalState (s : ResourceState) (actions : List String) : ResourceState :=
  actions.foldl applyAction s

/-- The state immediately prior to each action of a sequence, paired with
that action. -/
def preStates : ResourceState → List String → List (ResourceState × String)
  | _, [] => []
  | s, a :: rest => (s, a) :: preStates (applyAction s a) rest

/-- Modelled from the spec: the resource state each desired state is meant
to end in (section 8, transition completeness). -/
def targetState : DesiredState → ResourceState
  | .started => .Running
  | .stopped => .Stopped
  | .restarted => .Running
  | .frozen => .Frozen
  | .absent => .Absent

/-- The action log a run result carries (exit_json's logs field, or the logs
field of _on_timeout's fail_json; the unsupported-status abort happens before
any action). -/
def RunResult.logsOf : RunResult → List String
  | .ok r => r.logs
  | .unsupportedStatus _ => []
  | .addressTimeout _ logs => logs

/-- The changed flag a run result carries. -/
def RunResult.changedOf : RunResult → Bool
  | .ok r => r.changed
  | .unsupportedStatus _ => false
  | .addressTimeout c _ => c

/-- The resolved address map a run result carries, when any. -/
def RunResult.addressesOf :
    RunResult → Option (List (String × List String))
  | .ok r => r.addresses
  | .unsupportedStatus _ => none
  | .addressTimeout _ _ => none

/-- Whether a run result is the address-timeout failure. -/
def RunResult.isTimeout : RunResult → Bool
  | .addressTimeout _ _ => true
  | _ => false

/-- Python dict.get / create-empty / append of _get_container_addresses, on an
insertion-ordered association list: append the new addresses to the entry for
the key, creating the entry at the end when the key is new. -/
def dictAppend : List (String × List String) → String → List String →
    List (String × List String)
  | [], k, v => [(k, v)]
  | (k', v') :: rest, k, v =>
    if k' = k then (k', v' ++ v) :: rest
    else (k', v') :: dictAppend rest k v

/-- The body of _get_container_addresses' per-line loop, on a parsed
(interface, family, address) triple: skip the loopback interface, otherwise
ensure the interface has an entry and record the address only when the
family is inet. -/
def processEntry (d : List (String × List String))
    (e : String × String × String) : List (String × List String) :=
  if e.1 = "lo" then d
  else dictAppend d e.1 (if e.2.1 = "inet" then [e.2.2] else [])

/-- The accumulation of _get_container_addresses over the parsed triples of
the Ips section. -/
def parseAddressEntries (entries : List (String × String × String)) :
    List (String × List String) :=
  entries.foldl processEntry []

/-- Lookup in the accumulated address dict. -/
def lookupAddr : List (String × List String) → String → Option (List String)
  | [], _ => none
  | (k, v) :: rest, i => if k = i then some v else lookupAddr rest i

/-- The inet-family addresses a triple list reports for an interface, in
order. -/
def inetOf (i : String) (entries : List (String × String × String)) :
    List String :=
  entries.filterMap
    (fun e => if e.1 = i ∧ e.2.1 = "inet" then some e.2.2 else none)

/-- Python str.split() on a line: trim, then split on blanks, dropping empty
words. -/
def splitWords (line : String) : List String :=
  ((line.trim.replace "\t" " ").splitOn " ").filter (fun w => w ≠ "")

/-- One line of the Ips section as _get_container_addresses reads it:
words[0] with trailing colons stripped, words[1], words[2]; none when the
line has fewer than three words (the source would raise there). -/
def lineEntry (line : String) : Option (String × String × String) :=
  match splitWords line with
  | interface :: family :: address :: _ =>
    some (interface.dropRightWhile (fun c => c = ':'), family, address)
  | _ => none

/-- The line scanner of _get_container_addresses: in_ips turns on at an
"Ips:" line, off at a "Resources:" line, and lines in between feed the
accumulator. -/
def ipsStep (acc : Bool × List (String × List String)) (line : String) :
    Bool × List (String × List String) :=
  if line.startsWith "Ips:" then (true, acc.2)
  else if acc.1 then
    if line.startsWith "Resources:" then (false, acc.2)
    else
      match lineEntry line with
      | some e => (true, processEntry acc.2 e)
      | none => (true, acc.2)
  else (false, acc.2)

/-- LxdContainerManagement._get_container_addresses over the info command's
output. -/
def getContainerAddresses (out : String) : List (String × List String) :=
  ((out.splitOn "\n").foldl ipsStep (false, [])).2

/-- Whether an action sequence, started from a given state, ever executes a
stop or restart while the state immediately prior to it is Frozen. -/
def freezeSafe (s : ResourceState) (actions : List String) : Bool :=
  (preStates s actions).all
    (fun q => !((q.2 == "stop" || q.2 == "restart") &&
      q.1 == ResourceState.Frozen))

theorem runFromState_eq (d : DesiredState) (s : ResourceState) (t : Int)
    (p : Nat → List (String × List String)) :
    runFromState d s t p = runDispatch d (oldOf s) t p := by
  cases s <;> rfl

theorem runDispatch_logs (d : DesiredState) (old : Option String) (t : Int)
    (p : Nat → List (String × List String)) :
    (runDispatch d old t p).logsOf = runActions d old ∧
    (runDispatch d old t p).changedOf =
      decide (0 < (runActions d old).length) := by
  unfold runDispatch
  cases waitsForAddresses d
  · simp [RunResult.logsOf, RunResult.changedOf]
  · cases getAddresses t p <;>
      simp [RunResult.logsOf, RunResult.changedOf]

theorem runDispatch_cases (d : DesiredState) (old : Option String) (t : Int)
    (p : Nat → List (String × List String)) :
    (∃ a, runDispatch d old t p =
      .ok ⟨decide (0 < (runActions d old).length), old,
        runActions d old, a⟩) ∨
    runDispatch d old t p =
      .addressTimeout (decide (0 < (runActions d old).length))
        (runActions d old) := by
  unfold runDispatch
  cases waitsForAddresses d
  · exact Or.inl ⟨none, by simp⟩
  · cases getAddresses t p with
    | noWait => exact Or.inl ⟨none, by simp⟩
    | found a => exact Or.inl ⟨some a, by simp⟩
    | timedOut => exact Or.inr (by simp)

theorem pollLoop_never (n k : Nat) :
    pollLoop (fun _ => []) n k = .timedOut := by
  induction n generalizing k with
  | zero => rfl
  | succ m ih => simpa [pollLoop, hasAllIpv4Addresses] using ih (k + 1)

theorem runDispatch_no_wait_flag (d : DesiredState) (old : Option String)
    (t : Int) (p : Nat → List (String × List String))
    (hd : waitsForAddresses d = false) :
    runDispatch d old t p =
      .ok ⟨decide (0 < (runActions d old).length), old,
        runActions d old, none⟩ := by
  unfold runDispatch
  rw [hd]
  simp

theorem runDispatch_nonpos (d : DesiredState) (old : Option String) (t : Int)
    (p : Nat → List (String × List String)) (ht : t ≤ 0) :
    runDispatch d old t p =
      .ok ⟨decide (0 < (runActions d old).length), old,
        runActions d old, none⟩ := by
  have hg : getAddresses t p = .noWait := by
    unfold getAddresses
    exact if_pos ht
  unfold runDispatch
  rw [hg]
  cases waitsForAddresses d <;> simp

theorem runDispatch_timeout (d : DesiredState) (old : Option String) (t : Int)
    (hd : waitsForAddresses d = true) (ht : 0 < t) :
    runDispatch d old t (fun _ => []) =
      .addressTimeout (decide (0 < (runActions d old).length))
        (runActions d old) := by
  have hg : getAddresses t (fun _ => []) = .timedOut := by
    unfold getAddresses
    rw [if_neg (by omega)]
    exact pollLoop_never _ _
  unfold runDispatch
  rw [hd, hg]
  simp

theorem hasAllIpv4_iff (m : List (String × List String)) :
    hasAllIpv4Addresses m = true ↔
      0 < m.length ∧ ∀ v ∈ m, 0 < v.2.length := by
  simp [hasAllIpv4Addresses]

/-- C1: with desired state stopped and a frozen container, the module runs
lxc start and then lxc pause (logs ["start", "pause"]), which leaves the
container Frozen, not Stopped as the spec's scenario (Unfreeze then Stop)
requires: the _stopped handler's frozen branch pauses instead of stopping. -/
theorem c1_stopped_from_frozen_code_bug :
    (runFromState .stopped .Frozen 0 (fun _ => [])).logsOf =
      ["start", "pause"] ∧
    finalState .Frozen
      (runFromState .stopped .Frozen 0 (fun _ => [])).logsOf = .Frozen ∧
    finalState .Frozen
      (runFromState .stopped .Frozen 0 (fun _ => [])).logsOf ≠
      targetState .stopped := by
  decide

/-- C2 counterexample: desired state restarted is not idempotent.  A first
run from a Running container reaches the desired resulting state (Running),
yet the immediately following second run with the same desired state
executes restart again: its action log is ["restart"] and changed is true,
refuting the claim for the desired state Restarted. -/
theorem c2_restarted_counterexample :
    (runFromState .restarted .Running 0 (fun _ => [])).logsOf =
      ["restart"] ∧
    finalState .Running
      (runFromState .restarted .Running 0 (fun _ => [])).logsOf =
      targetState .restarted ∧
    (runFromState .restarted
      (finalState .Running
        (runFromState .restarted .Running 0 (fun _ => [])).logsOf)
      0 (fun _ => [])).logsOf = ["restart"] ∧
    (runFromState .restarted
      (finalState .Running
        (runFromState .restarted .Running 0 (fun _ => [])).logsOf)
      0 (fun _ => [])).changedOf = true := by
  decide

/-- C2 (amended): for every desired state except restarted, a second run
immediately after a run that reached the desired resulting state produces an
empty action log and changed = false, whatever the wait duration and the
polled addresses. -/
theorem c2_idempotent_except_restarted (d : DesiredState) (s : ResourceState)
    (t1 t2 : Int) (p1 p2 : Nat → List (String × List String))
    (hd : d ≠ .restarted)
    (hr : finalState s (runFromState d s t1 p1).logsOf = targetState d) :
    (runFromState d (finalState s (runFromState d s t1 p1).logsOf) t2
      p2).logsOf = [] ∧
    (runFromState d (finalState s (runFromState d s t1 p1).logsOf) t2
      p2).changedOf = false := by
  rw [hr, runFromState_eq]
  rcases runDispatch_logs d (oldOf (targetState d)) t2 p2 with ⟨hl, hc⟩
  rw [hl, hc]
  cases d <;> first
  | exact absurd rfl hd
  | decide

/-- Witness for the amended C2: a stopped-state run from Running, followed by
a second stopped-state run, which is an empty no-op. -/
theorem c2_idempotent_witness :
    (runFromState .stopped
      (finalState .Running
        (runFromState .stopped .Running 2 (fun _ => [])).logsOf) 2
      (fun _ => [])).logsOf = [] ∧
    (runFromState .stopped
      (finalState .Running
        (runFromState .stopped .Running 2 (fun _ => [])).logsOf) 2
      (fun _ => [])).changedOf = false :=
  c2_idempotent_except_restarted .stopped .Running 2 2 (fun _ => [])
    (fun _ => []) (by decide) (by decide)

/-- C3 counterexample: with desired state absent and a Running container,
the module's only action is delete, executed while the state immediately
prior is Running: no stop precedes the delete, refuting the claim that a
Stop is executed first on a non-stopped resource. -/
theorem c3_delete_counterexample :
    (runFromState .absent .Running 0 (fun _ => [])).logsOf = ["delete"] ∧
    preStates .Running
      (runFromState .absent .Running 0 (fun _ => [])).logsOf =
      [(.Running, "delete")] ∧
    "stop" ∉ (runFromState .absent .Running 0 (fun _ => [])).logsOf := by
  decide

/-- C3 (amended): for desired state absent on an existing resource, whatever
its current state, the only executed action is delete; no stop (and no
unfreeze) precedes it — removing a running or frozen resource is delegated
to the force flag the module threads into the delete command. -/
theorem c3_absent_deletes_directly (s : ResourceState) (t : Int)
    (p : Nat → List (String × List String)) (hs : s ≠ .Absent) :
    (runFromState .absent s t p).logsOf = ["delete"] ∧
    "stop" ∉ (runFromState .absent s t p).logsOf := by
  rw [runFromState_eq]
  rcases runDispatch_logs .absent (oldOf s) t p with ⟨hl, _⟩
  rw [hl]
  cases s <;> first
  | exact absurd rfl hs
  | decide

/-- Witness for the amended C3, at the Running state. -/
theorem c3_absent_witness :
    (runFromState .absent .Running 0 (fun _ => [])).logsOf = ["delete"] ∧
    "stop" ∉ (runFromState .absent .Running 0 (fun _ => [])).logsOf :=
  c3_absent_deletes_directly .Running 0 (fun _ => []) (by decide)

/-- C4: in every outcome of a run — exit_json's normal result and
_on_timeout's failure alike — the reported changed flag equals (length of
the action log > 0) and the carried log is exactly the action log the
handler accumulated; the unsupported-status abort never arises from a
recognized observed state. -/
theorem c4_changed_iff_actions (d : DesiredState) (s : ResourceState)
    (t : Int) (p : Nat → List (String × List String)) :
    match runFromState d s t p with
    | .ok r => r.changed = decide (0 < r.logs.length) ∧
        r.logs = runActions d (oldOf s)
    | .addressTimeout c logs => c = decide (0 < logs.length) ∧
        logs = runActions d (oldOf s)
    | .unsupportedStatus _ => False := by
  rw [runFromState_eq]
  rcases runDispatch_cases d (oldOf s) t p with ⟨a, h⟩ | h <;> rw [h] <;>
    exact ⟨rfl, rfl⟩

/-- C5: the address-wait success predicate holds iff the map has at least
one interface and every interface has at least one address; in particular
it is false on the empty map. -/
theorem c5_address_predicate (m : List (String × List String)) :
    (hasAllIpv4Addresses m = true ↔
      0 < m.length ∧ ∀ v ∈ m, 0 < v.2.length) ∧
    hasAllIpv4Addresses [] = false :=
  ⟨hasAllIpv4_iff m, rfl⟩

/-- C6: in every action sequence the run executes, no stop and no restart is
emitted while the state immediately prior to it is Frozen (the module emits
no config-apply action at all, so that part of the claim holds vacuously);
moreover from a Frozen start any sequence containing a stop or restart opens
with the unfreezing start action. -/
theorem c6_no_stop_restart_on_frozen (d : DesiredState) (s : ResourceState) :
    freezeSafe s (runActions d (oldOf s)) = true ∧
    (s = .Frozen →
      ((runActions d (oldOf s)).contains "stop" ||
        (runActions d (oldOf s)).contains "restart") = true →
      (runActions d (oldOf s)).head? = some "start") := by
  cases d <;> cases s <;> decide

/-- C7: a present status string outside ANSIBLE_LXD_STATES makes the run
abort with the unsupported-status failure carrying the raw string, before
any action is executed (the result's log is empty). -/
theorem c7_unsupported_status_aborts (d : DesiredState) (t : Int)
    (p : Nat → List (String × List String)) (s : String)
    (h : lookupAssoc ANSIBLE_LXD_STATES s = none) :
    runFromStatus d (some s) t p = .unsupportedStatus s ∧
    (runFromStatus d (some s) t p).logsOf = [] := by
  unfold runFromStatus
  simp [h, RunResult.logsOf]

/-- Witness for C7 at the raw status string "Weird". -/
theorem c7_unsupported_witness :
    runFromStatus .started (some "Weird") 0 (fun _ => []) =
      .unsupportedStatus "Weird" ∧
    (runFromStatus .started (some "Weird") 0 (fun _ => [])).logsOf = [] :=
  c7_unsupported_status_aborts .started 0 (fun _ => []) "Weird" (by decide)

/-- C8: the address wait runs only for desired states started and restarted
and only with a positive wait duration: for any other desired state or a
non-positive duration the result carries no addresses and is never the
timeout failure, whatever the backend would have reported; and for started
or restarted with a positive duration and a backend that never reports
addresses, the run ends in the timeout failure. -/
theorem c8_wait_gating (d : DesiredState) (s : ResourceState) (t : Int)
    (p : Nat → List (String × List String)) :
    ((t ≤ 0 ∨ (d ≠ .started ∧ d ≠ .restarted)) →
      (runFromState d s t p).addressesOf = none ∧
      (runFromState d s t p).isTimeout = false) ∧
    ((0 < t ∧ (d = .started ∨ d = .restarted)) →
      runFromState d s t (fun _ => []) =
        .addressTimeout (decide (0 < (runActions d (oldOf s)).length))
          (runActions d (oldOf s))) := by
  constructor
  · intro h
    rw [runFromState_eq]
    rcases h with ht | ⟨h1, h2⟩
    · rw [runDispatch_nonpos d (oldOf s) t p ht]
      exact ⟨rfl, rfl⟩
    · have hw : waitsForAddresses d = false := by
        cases d <;> first
        | exact absurd rfl h1
        | exact absurd rfl h2
        | rfl
      rw [runDispatch_no_wait_flag d (oldOf s) t p hw]
      exact ⟨rfl, rfl⟩
  · rintro ⟨ht, hd⟩
    rw [runFromState_eq]
    have hw : waitsForAddresses d = true := by
      rcases hd with h | h <;> subst h <;> rfl
    exact runDispatch_timeout d (oldOf s) t hw ht

/-- Witness for C8: a stopped-state run never polls, and a started-state run
with wait duration 3 against a backend that never reports addresses ends in
the timeout failure with an empty log and changed = false. -/
theorem c8_wait_gating_witness :
    ((runFromState .stopped .Running 5 (fun _ => [])).addressesOf = none ∧
      (runFromState .stopped .Running 5 (fun _ => [])).isTimeout = false) ∧
    runFromState .started .Running 3 (fun _ => []) =
      .addressTimeout
        (decide (0 < (runActions .started (oldOf .Running)).length))
        (runActions .started (oldOf .Running)) :=
  ⟨(c8_wait_gating .stopped .Running 5 (fun _ => [])).1 (Or.inr (by decide)),
    (c8_wait_gating .started .Running 3 (fun _ => [])).2
      ⟨by decide, Or.inl rfl⟩⟩

/-- C9: when the status query fails — non-zero exit code or output without a
Status line — the parsed status is none, the run proceeds exactly as for an
absent resource instead of aborting, and for every desired state other than
absent the first executed action is launch (a creation attempt). -/
theorem c9_status_failure_means_absent (d : DesiredState) (rc : Nat)
    (out : String) (t : Int) (p : Nat → List (String × List String))
    (h : rc ≠ 0 ∨ ∀ line ∈ out.splitOn "\n",
      line.startsWith "Status: " = false) :
    getContainerStatus rc out = none ∧
    run d rc out t p = runFromStatus d none t p ∧
    (d ≠ .absent → (run d rc out t p).logsOf.head? = some "launch") := by
  have hs : getContainerStatus rc out = none := by
    unfold getContainerStatus
    by_cases hrc : rc = 0
    · rw [if_pos hrc]
      rcases h with h0 | hl
      · exact absurd hrc h0
      · have hf : (out.splitOn "\n").find?
            (fun line => line.startsWith "Status: ") = none := by
          rw [List.find?_eq_none]
          intro x hx
          simp [hl x hx]
        rw [hf]
        rfl
    · exact if_neg hrc
  refine ⟨hs, ?_, ?_⟩
  · unfold run
    rw [hs]
  · intro hd
    unfold run
    rw [hs]
    have he : runFromStatus d none t p = runDispatch d none t p := rfl
    rw [he]
    rcases runDispatch_logs d none t p with ⟨hl2, _⟩
    rw [hl2]
    cases d <;> first
    | exact absurd rfl hd
    | rfl

/-- Witness for C9: a failed info command (exit code 1) with desired state
started leads to a creation attempt. -/
theorem c9_status_failure_witness :
    getContainerStatus 1 "error" = none ∧
    run .started 1 "error" 0 (fun _ => []) =
      runFromStatus .started none 0 (fun _ => []) ∧
    (DesiredState.started ≠ .absent →
      (run .started 1 "error" 0 (fun _ => [])).logsOf.head? =
        some "launch") :=
  c9_status_failure_means_absent .started 1 "error" 0 (fun _ => [])
    (Or.inl (by decide))

theorem lookupAddr_dictAppend (d : List (String × List String)) (k : String)
    (v : List String) (i : String) :
    lookupAddr (dictAppend d k v) i =
      if i = k then some (((lookupAddr d k).getD []) ++ v)
      else lookupAddr d i := by
  induction d with
  | nil =>
    by_cases h : i = k
    · subst h
      simp [dictAppend, lookupAddr]
    · have h' : ¬ k = i := fun hh => h hh.symm
      simp [dictAppend, lookupAddr, h, h']
  | cons kv rest ih =>
    obtain ⟨k', v'⟩ := kv
    by_cases h1 : k' = k
    · subst h1
      by_cases h2 : i = k'
      · subst h2
        simp [dictAppend, lookupAddr]
      · have h2' : ¬ k' = i := fun hh => h2 hh.symm
        simp [dictAppend, lookupAddr, h2, h2']
    · by_cases h2 : i = k'
      · have hk'i : k' = i := h2.symm
        have hik : ¬ i = k := fun hh => h1 (h2.symm.trans hh)
        simp [dictAppend, lookupAddr, h1, hik, hk'i]
      · have hk'i : ¬ k' = i := fun hh => h2 hh.symm
        simp [dictAppend, lookupAddr, h1, hk'i, ih]

theorem lookupAddr_foldl (entries : List (String × String × String))
    (d : List (String × List String)) (i : String) (hi : i ≠ "lo") :
    lookupAddr (entries.foldl processEntry d) i =
      match lookupAddr d i with
      | some v => some (v ++ inetOf i entries)
      | none =>
        if entries.any (fun e => e.1 == i) then some (inetOf i entries)
        else none := by
  induction entries generalizing d with
  | nil =>
    simp only [List.foldl_nil]
    cases hld : lookupAddr d i <;> simp [inetOf]
  | cons e rest ih =>
    obtain ⟨j, f, a⟩ := e
    rw [List.foldl_cons, ih]
    by_cases hj : j = "lo"
    · subst hj
      have hne : ¬ ("lo" : String) = i := fun hh => hi hh.symm
      have hpe : processEntry d ("lo", f, a) = d := by
        simp [processEntry]
      rw [hpe]
      have hb : (("lo" : String) == i) = false :=
        beq_eq_false_iff_ne.mpr hne
      cases hld : lookupAddr d i
      · simp [inetOf, hne]
        rw [hb, Bool.false_or]
      · simp [inetOf, hne, hb]
    · have hpe : processEntry d (j, f, a) =
          dictAppend d j (if f = "inet" then [a] else []) := by
        simp [processEntry, hj]
      rw [hpe, lookupAddr_dictAppend]
      by_cases hij : i = j
      · subst hij
        rw [if_pos rfl]
        cases hld : lookupAddr d i <;> by_cases hf : f = "inet" <;>
          simp [inetOf, hf, List.append_assoc]
      · rw [if_neg hij]
        have hne2 : ¬ j = i := fun hh => hij hh.symm
        have hb : (j == i) = false := beq_eq_false_iff_ne.mpr hne2
        cases hld : lookupAddr d i
        · simp [inetOf, hne2]
          rw [hb, Bool.false_or]
        · simp [inetOf, hne2, hb]

theorem lookupAddr_mem (m : List (String × List String)) (i : String)
    (v : List String) (h : lookupAddr m i = some v) : (i, v) ∈ m := by
  induction m with
  | nil => cases h
  | cons kv rest ih =>
    obtain ⟨k, w⟩ := kv
    by_cases hk : k = i
    · subst hk
      rw [lookupAddr, if_pos rfl] at h
      obtain rfl : w = v := Option.some.inj h
      exact List.mem_cons_self _ _
    · rw [lookupAddr, if_neg hk] at h
      exact List.mem_cons_of_mem _ (ih h)

theorem lookupAddr_foldl_lo (entries : List (String × String × String))
    (d : List (String × List String)) (h : lookupAddr d "lo" = none) :
    lookupAddr (entries.foldl processEntry d) "lo" = none := by
  induction entries generalizing d with
  | nil => exact h
  | cons e rest ih =>
    obtain ⟨j, f, a⟩ := e
    rw [List.foldl_cons]
    apply ih
    by_cases hj : j = "lo"
    · simp only [processEntry, if_pos hj]
      exact h
    · simp only [processEntry, if_neg hj]
      rw [lookupAddr_dictAppend, if_neg (fun hh => hj hh.symm)]
      exact h

/-- C10: the accumulated address map has an entry exactly for each
non-loopback interface the backend reports (the loopback interface never
appears), every entry's list is exactly that interface's inet-family
addresses, and an interface reported only with non-inet addresses is present
with an empty list and makes the address-wait success predicate false. -/
theorem c10_address_map_shape (entries : List (String × String × String)) :
    (∀ i, i ≠ "lo" →
      ((lookupAddr (parseAddressEntries entries) i).isSome = true ↔
        entries.any (fun e => e.1 == i) = true)) ∧
    lookupAddr (parseAddressEntries entries) "lo" = none ∧
    (∀ i v, lookupAddr (parseAddressEntries entries) i = some v →
      v = inetOf i entries) ∧
    (∀ i, i ≠ "lo" → entries.any (fun e => e.1 == i) = true →
      inetOf i entries = [] →
      hasAllIpv4Addresses (parseAddressEntries entries) = false) := by
  have hfold : ∀ i, i ≠ "lo" →
      lookupAddr (parseAddressEntries entries) i =
        if entries.any (fun e => e.1 == i) then some (inetOf i entries)
        else none := by
    intro i hi
    have h := lookupAddr_foldl entries [] i hi
    simpa [parseAddressEntries, lookupAddr] using h
  have hlo : lookupAddr (parseAddressEntries entries) "lo" = none :=
    lookupAddr_foldl_lo entries [] rfl
  refine ⟨?_, hlo, ?_, ?_⟩
  · intro i hi
    rw [hfold i hi]
    by_cases h : entries.any (fun e => e.1 == i) = true <;> simp [h]
  · intro i v hv
    by_cases hi : i = "lo"
    · rw [hi, hlo] at hv
      cases hv
    · rw [hfold i hi] at hv
      by_cases h : entries.any (fun e => e.1 == i) = true
      · rw [if_pos h] at hv
        exact (Option.some.inj hv).symm
      · rw [if_neg h] at hv
        cases hv
  · intro i hi hany hinet
    have hv : lookupAddr (parseAddressEntries entries) i = some [] := by
      rw [hfold i hi, if_pos hany, hinet]
    have hmem := lookupAddr_mem _ _ _ hv
    cases hA : hasAllIpv4Addresses (parseAddressEntries entries)
    · rfl
    · exfalso
      have hspec := (hasAllIpv4_iff _).mp hA
      have hlen := hspec.2 (i, []) hmem
      simp at hlen

end LxdContainer
